import Mathlib

/-!
Verification of the Lo language interpreter (src/main.cpp).

The driver in `main.cpp` is embedded faithfully: line classification
(the regexes `locRegex`, `assignRegex`, `inputRegex`, `funRegex`,
`printRegex`, `printRegex`, and the inline `if-`/`elif-` regexes) is
translated into deterministic matchers that reproduce the full-match
(`std::regex_match`) semantics of each pattern, including greedy capture
behaviour; the statement handlers `processLoc`, `processAssign`,
`processInput`, `processPrint` and the dispatch loop of `main` are
translated statement by statement.

The repository ships only `main.cpp`; the headers `src/h/utils.h`,
`src/h/evaluator.h` and `src/h/executor.h` (declaring `trim`,
`evalExpression`, `evaluateCondition` and `executeFunction`) are absent,
so those four operations are modelled from the spec, as marked on each
definition.  Console input is modelled as a list of lines, stdout as an
accumulated string, stderr warnings as a list of strings, and process
exit as an `Except` outcome (`.ok` = exit 0, `.error` = exit 1).
-/

deriving instance DecidableEq for Except

namespace Lo

/-! ## Character classes and basic string utilities -/

/-- C/C++ `isspace` character set (used by `\s` in `std::regex` and by
`std::stoll`'s leading-whitespace skip). -/
def isSpaceChar (c : Char) : Bool :=
  c = ' ' || c = '\t' || c = '\n' || c = '\r' || c = '\x0b' || c = '\x0c'

/-- The `\w` character class of `std::regex` with the default locale:
ASCII letters, digits and underscore. -/
def isWordChar (c : Char) : Bool :=
  c.isAlpha || c.isDigit || c = '_'

/-- Modelled from the spec: `trim` is declared in the missing
`src/h/utils.h`; the spec treats it as "basic string trimming", i.e.
removing whitespace from both ends. -/
def trim (s : String) : String :=
  ⟨((s.data.dropWhile isSpaceChar).reverse.dropWhile isSpaceChar).reverse⟩

/-- `startsWith` from main.cpp: does `s` begin with `p`? -/
def startsWith (s p : String) : Bool :=
  go s.data p.data
where
  go : List Char → List Char → Bool
    | _, [] => true
    | [], _ :: _ => false
    | c :: cs, d :: ds => c = d && go cs ds

/-- One quote-layer strip as done inline in `processLoc`/`processAssign`:
if the string has length at least 2 and begins and ends with `"`,
remove those two characters. -/
def stripQuotes (s : String) : String :=
  match s.data with
  | '"' :: rest =>
    if rest ≠ [] ∧ rest.getLast? = some '"' then ⟨rest.dropLast⟩ else s
  | _ => s

/-- Split a character list on a delimiter, keeping empty fields. -/
def splitChar (d : Char) : List Char → List Char → List (List Char)
  | [], acc => [acc.reverse]
  | c :: r, acc => if c = d then acc.reverse :: splitChar d r [] else splitChar d r (c :: acc)

/-- Comma splitting as performed by `std::getline(ss, item, ',')` loops in
main.cpp: split on every comma, except that an empty input produces
no fields and a single trailing empty field is dropped. -/
def splitComma (s : String) : List String :=
  match s.data with
  | [] => []
  | cs =>
    let f := (splitChar ',' cs []).map (fun l => (⟨l⟩ : String))
    if cs.getLast? = some ',' then f.dropLast else f

/-- Decimal digit character for `d < 10`. -/
def decDigit (d : Nat) : Char := Char.ofNat (48 + d)

/-- Decimal digits of a natural number, fuel-driven. -/
def natToDecAux : Nat → Nat → List Char
  | 0, _ => []
  | f + 1, n =>
    if n < 10 then [decDigit n]
    else natToDecAux f (n / 10) ++ [decDigit (n % 10)]

/-- Decimal digits of a natural number. -/
def natToDec (n : Nat) : List Char := natToDecAux (n + 1) n

/-- Canonical decimal text of an integer (the "decimal text" form the
spec requires of int-typed values). -/
def intToDecString (i : Int) : String :=
  if i < 0 then ⟨'-' :: natToDec i.natAbs⟩ else ⟨natToDec i.toNat⟩

/-- Does the string re-parse as decimal integer text: an optional minus
sign followed by at least one digit, and nothing else? -/
def isDecimalIntText (s : String) : Bool :=
  match s.data with
  | [] => false
  | c :: cs =>
    if c = '-' then cs ≠ [] && cs.all (·.isDigit)
    else (c :: cs).all (·.isDigit)

/-- Numeric value of a digit list. -/
def digitsToNat (ds : List Char) : Nat :=
  ds.foldl (fun a c => a * 10 + (c.toNat - 48)) 0

/-- Strict integer-literal parse: optional minus sign then digits. -/
def parseIntLit (s : String) : Option Int :=
  match s.data with
  | [] => none
  | '-' :: r => if r ≠ [] ∧ r.all (·.isDigit) then some (-(digitsToNat r : Int)) else none
  | cs => if cs.all (·.isDigit) then some (digitsToNat cs) else none

/-- Success predicate of `std::stoll` as called by `processInput`:
skip leading whitespace, accept an optional sign, require at least one
decimal digit, ignore any trailing text, and require the parsed prefix
to fit in a signed 64-bit integer. -/
def stollOk (s : String) : Bool :=
  let cs := s.data.dropWhile isSpaceChar
  let (sign, cs') : Int × List Char :=
    match cs with
    | '+' :: r => (1, r)
    | '-' :: r => (-1, r)
    | r => (1, r)
  let ds := cs'.takeWhile (·.isDigit)
  ds ≠ [] && (decide (-(9223372036854775808 : Int) ≤ sign * (digitsToNat ds : Int)) &&
              decide (sign * (digitsToNat ds : Int) ≤ (9223372036854775807 : Int)))

/-- C++ lexicographic `std::string` comparison (`operator<`). -/
def strLtB : List Char → List Char → Bool
  | [], [] => false
  | [], _ :: _ => true
  | _ :: _, [] => false
  | c :: cs, d :: ds => c < d || (c = d && strLtB cs ds)

/-! ## Data model (structs from main.cpp and the missing headers,
fields per their usage in main.cpp and spec section 3) -/

/-- Variable record: declared type tag and canonical string value. -/
structure Variable where
  type : String
  value : String
deriving DecidableEq

/-- Function definition: return type tag, ordered parameters
(declaredType-or-"var", name) and raw body lines. -/
structure FunctionDef where
  returnType : String
  params : List (String × String)
  body : List String
deriving DecidableEq

/-- Conditional frame from main.cpp (`struct IfState`). -/
structure IfState where
  matched : Bool
  skipping : Bool
deriving DecidableEq

/-! ### Association-list stores.  `variables` is a `std::unordered_map`
and `functions` a `std::map`; both are modelled as association lists
whose insert replaces the binding of an existing key (the semantics of
`operator[]` assignment). -/

/-- Map lookup. -/
def alookup {α : Type} : List (String × α) → String → Option α
  | [], _ => none
  | (k, v) :: t, n => if k = n then some v else alookup t n

/-- Map store via `operator[]`: replace an existing binding in place,
otherwise add a new one. -/
def ainsert {α : Type} : List (String × α) → String → α → List (String × α)
  | [], n, v => [(n, v)]
  | (k, w) :: t, n, v => if k = n then (n, v) :: t else (k, w) :: ainsert t n v

/-- Map erase (first binding of the key). -/
def aerase {α : Type} : List (String × α) → String → List (String × α)
  | [], _ => []
  | (k, w) :: t, n => if k = n then t else (k, w) :: aerase t n

/-- Are the keys of the association list pairwise distinct? -/
def keysNodupB {α : Type} : List (String × α) → Bool
  | [] => true
  | (k, _) :: t => !(t.any (fun p => p.1 = k)) && keysNodupB t

abbrev VarStore := List (String × Variable)

/-- Context from main.cpp: function table and variable table (the C++
field `variables` is named `vars` here because `variables` is a reserved
token in Lean). -/
structure Context where
  functions : List (String × FunctionDef)
  vars : VarStore
deriving DecidableEq

/-! ## Line matchers (translations of the `std::regex` patterns,
full-match semantics) -/

/-- Consume an expected literal character sequence. -/
def expectChars : List Char → List Char → Option (List Char)
  | [], cs => some cs
  | p :: ps, c :: cs => if c = p then expectChars ps cs else none
  | _ :: _, [] => none

/-- `\s+` followed by nothing else pending: require at least one
whitespace character and consume the whole run. -/
def ws1 : List Char → Option (List Char)
  | c :: r => if isSpaceChar c then some (r.dropWhile isSpaceChar) else none
  | [] => none

/-- `(\w+)`: capture a nonempty maximal word-character run. -/
def word1 (cs : List Char) : Option (List Char × List Char) :=
  let w := cs.takeWhile isWordChar
  if w = [] then none else some (w, cs.drop w.length)

/-- The `(int|str|bool|arr)\(` alternation of `locRegex` together with the
literal `(` that follows it. -/
def tryTypes (cs : List Char) : Option (String × List Char) :=
  match expectChars ['i', 'n', 't', '('] cs with
  | some r => some ("int", r)
  | none =>
  match expectChars ['s', 't', 'r', '('] cs with
  | some r => some ("str", r)
  | none =>
  match expectChars ['b', 'o', 'o', 'l', '('] cs with
  | some r => some ("bool", r)
  | none =>
  match expectChars ['a', 'r', 'r', '('] cs with
  | some r => some ("arr", r)
  | none => none

/-- `locRegex`: `^loc\s+(\w+)\s*=\s*(int|str|bool|arr)\((.*)\)\s*!$`.
Returns (name, type, raw capture 3). -/
def matchLoc (ln : String) : Option (String × String × String) := do
  let cs ← expectChars ['l', 'o', 'c'] ln.data
  let cs ← ws1 cs
  let (nm, cs) ← word1 cs
  let cs := cs.dropWhile isSpaceChar
  let cs ← expectChars ['='] cs
  let cs := cs.dropWhile isSpaceChar
  let (ty, cs) ← tryTypes cs
  let rev ← expectChars ['!'] cs.reverse
  let rev := rev.dropWhile isSpaceChar
  let rev ← expectChars [')'] rev
  some (⟨nm⟩, ty, ⟨rev.reverse⟩)

/-- `assignRegex`: `^(\w+)\s*=\s*(.+)\!$`.  Returns (name, capture 2);
the greedy `\s*` yields back at most enough whitespace to leave the
`(.+)` capture nonempty. -/
def matchAssign (ln : String) : Option (String × String) := do
  let (nm, cs) ← word1 ln.data
  let cs := cs.dropWhile isSpaceChar
  let cs ← expectChars ['='] cs
  match cs.reverse with
  | '!' :: coreRev =>
    let core := coreRev.reverse
    if core.length = 0 then none
    else
      let wsn := (core.takeWhile isSpaceChar).length
      some (⟨nm⟩, ⟨core.drop (min wsn (core.length - 1))⟩)
  | _ => none

/-- `inputRegex`: `^(\w+)\s*=\s*input--\s*(i|str)-\s*"([^"]*)"!$`.
Returns (name, type, prompt). -/
def matchInput (ln : String) : Option (String × String × String) := do
  let (nm, cs) ← word1 ln.data
  let cs := cs.dropWhile isSpaceChar
  let cs ← expectChars ['='] cs
  let cs := cs.dropWhile isSpaceChar
  let cs ← expectChars ['i', 'n', 'p', 'u', 't', '-', '-'] cs
  let cs := cs.dropWhile isSpaceChar
  let (ty, cs) ←
    match expectChars ['i', '-'] cs with
    | some r => some ("i", r)
    | none =>
      match expectChars ['s', 't', 'r', '-'] cs with
      | some r => some ("str", r)
      | none => none
  let cs := cs.dropWhile isSpaceChar
  let cs ← expectChars ['"'] cs
  let prompt := cs.takeWhile (· ≠ '"')
  let cs := cs.drop prompt.length
  let cs ← expectChars ['"', '!'] cs
  if cs = [] then some (⟨nm⟩, ty, ⟨prompt⟩) else none

/-- `funRegex`: `^funS\s+(\w+)\s+(\w+)\(([^)]*)\):\s*\{$`.
Returns (returnType, name, raw parameter list). -/
def matchFun (ln : String) : Option (String × String × String) := do
  let cs ← expectChars ['f', 'u', 'n', 'S'] ln.data
  let cs ← ws1 cs
  let (rt, cs) ← word1 cs
  let cs ← ws1 cs
  let (nm, cs) ← word1 cs
  let cs ← expectChars ['('] cs
  let ps := cs.takeWhile (· ≠ ')')
  let cs := cs.drop ps.length
  let cs ← expectChars [')', ':'] cs
  let cs := cs.dropWhile isSpaceChar
  let cs ← expectChars ['\x7b'] cs
  if cs = [] then some (⟨rt⟩, ⟨nm⟩, ⟨ps⟩) else none

/-- `returnRegex`: `^return\s+(.*)!$`.  Returns capture 1. -/
def matchReturn (ln : String) : Option String := do
  let cs ← expectChars ['r', 'e', 't', 'u', 'r', 'n'] ln.data
  let cs ← ws1 cs
  match cs.reverse with
  | '!' :: coreRev => some ⟨coreRev.reverse⟩
  | _ => none

/-- Parsed shape of a `print--` statement (the three alternatives of
`printRegex`). -/
inductive PrintArg where
  | lit (s : String)
  | var (s : String)
  | call (f : String) (args : String)
deriving DecidableEq

/-- `printRegex`: `^print--\s*(?:("([^"]*)")|(\w+)|f-(\w+)\(([^)]*)\))!$`,
alternatives tried in order. -/
def matchPrint (ln : String) : Option PrintArg := do
  let cs ← expectChars ['p', 'r', 'i', 'n', 't', '-', '-'] ln.data
  let cs := cs.dropWhile isSpaceChar
  match cs with
  | '"' :: rest =>
    let lit := rest.takeWhile (· ≠ '"')
    match rest.drop lit.length with
    | '"' :: '!' :: [] => some (.lit ⟨lit⟩)
    | _ => none
  | _ =>
    let w := cs.takeWhile isWordChar
    if w ≠ [] ∧ cs.drop w.length = ['!'] then some (.var ⟨w⟩)
    else do
      let cs ← expectChars ['f', '-'] cs
      let (nm, cs) ← word1 cs
      let cs ← expectChars ['('] cs
      let args := cs.takeWhile (· ≠ ')')
      let cs := cs.drop args.length
      let cs ← expectChars [')', '!'] cs
      if cs = [] then some (.call ⟨nm⟩ ⟨args⟩) else none

/-- One of the three comparison operators `>>`, `<<`, `===`. -/
def matchOp : List Char → Option (String × List Char)
  | '>' :: '>' :: r => some (">>", r)
  | '<' :: '<' :: r => some ("<<", r)
  | '=' :: '=' :: '=' :: r => some ("===", r)
  | _ => none

/-- The inline condition regexes of main.cpp,
`(if-|elif-)\s*(\w+)\s*(>>|<<|===)\s*(\w+)\s*the` under full-match
semantics (the trailing `(\w+)\s*the` admits a match exactly when the
text after the operator is a nonempty word run, optional whitespace,
then `the`). -/
def matchCond (kw : List Char) (ln : String) : Option (String × String × String) := do
  let cs ← expectChars kw ln.data
  let cs := cs.dropWhile isSpaceChar
  let (lhs, cs) ← word1 cs
  let cs := cs.dropWhile isSpaceChar
  let (op, cs) ← matchOp cs
  let cs := cs.dropWhile isSpaceChar
  let rev ← expectChars ['e', 'h', 't'] cs.reverse
  let rhs := (rev.dropWhile isSpaceChar).reverse
  if rhs ≠ [] ∧ rhs.all isWordChar then some (⟨lhs⟩, op, ⟨rhs⟩) else none

/-! ## Expression evaluator.

Modelled from the spec: `evalExpression` is declared in the missing
`src/h/evaluator.h`.  Spec section 4.2: `evaluate(expr, variables) ->
decimal text`; int-typed variable references are substituted by their
current value, referencing a non-int variable is a type error,
conventional arithmetic operators with standard precedence and
parenthesization are supported, unknown tokens fail InvalidExpression,
division or modulo by zero fails DivisionByZero. -/

/-- Expression token. -/
inductive Tok where
  | num (n : Nat)
  | ident (s : String)
  | plus
  | minus
  | star
  | slash
  | percent
  | lparen
  | rparen
deriving DecidableEq

/-- Modelled from the spec: tokenizer over identifiers, integer
literals, `+ - * / %` and parentheses; any other character fails
InvalidExpression. -/
def tokenizeAux : Nat → List Char → Except String (List Tok)
  | 0, _ => .error "Invalid expression"
  | _ + 1, [] => .ok []
  | f + 1, c :: cs =>
    if isSpaceChar c then tokenizeAux f cs
    else if c.isDigit then
      let ds := (c :: cs).takeWhile (·.isDigit)
      (tokenizeAux f ((c :: cs).dropWhile (·.isDigit))).map (Tok.num (digitsToNat ds) :: ·)
    else if isWordChar c then
      let ws := (c :: cs).takeWhile isWordChar
      (tokenizeAux f ((c :: cs).dropWhile isWordChar)).map (Tok.ident ⟨ws⟩ :: ·)
    else if c = '+' then (tokenizeAux f cs).map (Tok.plus :: ·)
    else if c = '-' then (tokenizeAux f cs).map (Tok.minus :: ·)
    else if c = '*' then (tokenizeAux f cs).map (Tok.star :: ·)
    else if c = '/' then (tokenizeAux f cs).map (Tok.slash :: ·)
    else if c = '%' then (tokenizeAux f cs).map (Tok.percent :: ·)
    else if c = '(' then (tokenizeAux f cs).map (Tok.lparen :: ·)
    else if c = ')' then (tokenizeAux f cs).map (Tok.rparen :: ·)
    else .error ("Invalid character in expression: " ++ ⟨[c]⟩)

mutual

/-- Modelled from the spec: primary factor — integer literal, int-typed
variable reference, or parenthesized expression. -/
def parseF : Nat → VarStore → List Tok → Except String (Int × List Tok)
  | 0, _, _ => .error "Invalid expression"
  | f + 1, vars, toks =>
    match toks with
    | .num n :: r => .ok ((n : Int), r)
    | .ident s :: r =>
      match alookup vars s with
      | some v =>
        if v.type = "int" then
          match parseIntLit v.value with
          | some i => .ok (i, r)
          | none => .error ("Invalid int variable value: " ++ v.value)
        else .error ("Type error: variable is not int: " ++ s)
      | none => .error ("Undefined variable: " ++ s)
    | .lparen :: r =>
      match parseE f vars r with
      | .ok (v, .rparen :: r2) => .ok (v, r2)
      | .ok _ => .error "Invalid expression"
      | .error e => .error e
    | _ => .error "Invalid expression"

/-- Modelled from the spec: left-associative `* / %` level. -/
def parseT : Nat → VarStore → List Tok → Except String (Int × List Tok)
  | 0, _, _ => .error "Invalid expression"
  | f + 1, vars, toks =>
    match parseF f vars toks with
    | .ok (v, r) => parseTLoop f vars v r
    | .error e => .error e

/-- Modelled from the spec: fold further `* / %` operands onto `acc`. -/
def parseTLoop : Nat → VarStore → Int → List Tok → Except String (Int × List Tok)
  | 0, _, _, _ => .error "Invalid expression"
  | f + 1, vars, acc, toks =>
    match toks with
    | .star :: r =>
      match parseF f vars r with
      | .ok (v, r2) => parseTLoop f vars (acc * v) r2
      | .error e => .error e
    | .slash :: r =>
      match parseF f vars r with
      | .ok (v, r2) => if v = 0 then .error "Division by zero" else parseTLoop f vars (acc.tdiv v) r2
      | .error e => .error e
    | .percent :: r =>
      match parseF f vars r with
      | .ok (v, r2) => if v = 0 then .error "Division by zero" else parseTLoop f vars (acc.tmod v) r2
      | .error e => .error e
    | _ => .ok (acc, toks)

/-- Modelled from the spec: left-associative `+ -` level. -/
def parseE : Nat → VarStore → List Tok → Except String (Int × List Tok)
  | 0, _, _ => .error "Invalid expression"
  | f + 1, vars, toks =>
    match parseT f vars toks with
    | .ok (v, r) => parseELoop f vars v r
    | .error e => .error e

/-- Modelled from the spec: fold further `+ -` operands onto `acc`. -/
def parseELoop : Nat → VarStore → Int → List Tok → Except String (Int × List Tok)
  | 0, _, _, _ => .error "Invalid expression"
  | f + 1, vars, acc, toks =>
    match toks with
    | .plus :: r =>
      match parseT f vars r with
      | .ok (v, r2) => parseELoop f vars (acc + v) r2
      | .error e => .error e
    | .minus :: r =>
      match parseT f vars r with
      | .ok (v, r2) => parseELoop f vars (acc - v) r2
      | .error e => .error e
    | _ => .ok (acc, toks)

end

/-- Modelled from the spec: `evalExpression` — evaluate an arithmetic
expression over the variable store and return its decimal text. -/
def evalExpression (vars : VarStore) (expr : String) : Except String String :=
  match tokenizeAux (expr.length + 1) expr.data with
  | .error e => .error e
  | .ok toks =>
    match parseE (4 * toks.length + 8) vars toks with
    | .error e => .error e
    | .ok (v, []) => .ok (intToDecString v)
    | .ok (_, _ :: _) => .error "Invalid expression"

/-! ## Condition evaluator.

Modelled from the spec: `evaluateCondition` is declared in the missing
`src/h/evaluator.h`.  Spec section 4.3: each operand resolves to a
declared variable's current value if the token is a known identifier,
else is treated as a literal (numeric if it parses as an integer, else
text); comparison is numeric if both operands parse as integers, else
textual; fails UndefinedVariable only when a token looks
identifier-shaped but is neither declared nor a valid literal. -/

/-- Does the token look identifier-shaped (first character a letter or
underscore)? -/
def identShaped (s : String) : Bool :=
  match s.data with
  | c :: _ => c.isAlpha || c = '_'
  | [] => false

/-- Modelled from the spec: resolve a condition operand to its compared
text. -/
def resolveOperand (vars : VarStore) (tok : String) : Except String String :=
  match alookup vars tok with
  | some v => .ok v.value
  | none =>
    if (parseIntLit tok).isSome then .ok tok
    else if identShaped tok then .error ("Undefined variable: " ++ tok)
    else .ok tok

/-- Numeric comparison for the three operators. -/
def applyOpInt (op : String) (x y : Int) : Bool :=
  if op = ">>" then decide (y < x)
  else if op = "<<" then decide (x < y)
  else if op = "===" then decide (x = y)
  else false

/-- Textual comparison for the three operators (C++ `std::string`
lexicographic order). -/
def applyOpStr (op : String) (a b : String) : Bool :=
  if op = ">>" then strLtB b.data a.data
  else if op = "<<" then strLtB a.data b.data
  else if op = "===" then a = b
  else false

/-- Modelled from the spec: `evaluateCondition(variables, lhs, op, rhs)`. -/
def evaluateCondition (vars : VarStore) (l op r : String) : Except String Bool :=
  match resolveOperand vars l with
  | .error e => .error e
  | .ok a =>
    match resolveOperand vars r with
    | .error e => .error e
    | .ok b =>
      match parseIntLit a, parseIntLit b with
      | some x, some y => .ok (applyOpInt op x y)
      | _, _ => .ok (applyOpStr op a b)

/-! ## Run-time errors and small-state record -/

/-- The two fatal diagnostics of main.cpp: `errorAndExit` (lines 35-38,
"Error at line N: msg") and the syntax-error branch of the dispatch
loop (lines 244-247, "Syntax error at line N: text").  Both exit with
status 1. -/
inductive RunErr where
  | syntaxError (lineno : Nat) (text : String)
  | fatal (lineno : Nat) (msg : String)
deriving DecidableEq

/-- The text `errorAndExit` / the syntax-error branch write to stderr. -/
def renderErr : RunErr → String
  | .syntaxError n t => "Syntax error at line " ++ ⟨natToDec n⟩ ++ ": " ++ t
  | .fatal n m => "Error at line " ++ ⟨natToDec n⟩ ++ ": " ++ m

/-- Mutable state threaded through statement execution: variable store,
pending stdin lines, accumulated stdout text, non-fatal stderr
warnings. -/
structure Micro where
  vars : VarStore
  stdin : List String
  out : String
  warn : List String
deriving DecidableEq

/-! ## Statement handlers (processLoc, processAssign, processInput from
main.cpp; processPrint follows below, inside the mutual block, because
its function-call branch runs a function body) -/

/-- `processLoc` from main.cpp (lines 44-82). -/
def processLoc (vars : VarStore) (name ty rawM : String) (lineno : Nat) :
    Except RunErr VarStore :=
  let raw := trim rawM
  if ty = "str" then
    .ok (ainsert vars name ⟨"str", stripQuotes raw⟩)
  else if ty = "int" then
    match evalExpression vars raw with
    | .ok v => .ok (ainsert vars name ⟨"int", v⟩)
    | .error m => .error (.fatal lineno m)
  else if ty = "bool" then
    let v := trim raw
    if v = "true" ∨ v = "1" then .ok (ainsert vars name ⟨"bool", "true"⟩)
    else if v = "false" ∨ v = "0" then .ok (ainsert vars name ⟨"bool", "false"⟩)
    else .error (.fatal lineno ("Invalid bool value: " ++ v))
  else if ty = "arr" then
    let elements := (splitComma (trim raw)).map (fun it => stripQuotes (trim it))
    .ok (ainsert vars name ⟨"arr", String.intercalate "," elements⟩)
  else .error (.fatal lineno ("Unknown type for loc: " ++ ty))

/-- `processAssign` from main.cpp (lines 84-99): re-parse the rhs under
the variable's existing declared type; only the value field changes. -/
def processAssign (vars : VarStore) (name rhsRaw : String) (lineno : Nat) :
    Except RunErr VarStore :=
  match alookup vars name with
  | none => .error (.fatal lineno ("Undefined variable: " ++ name))
  | some var =>
    let rhs := trim rhsRaw
    if var.type = "int" then
      match evalExpression vars rhs with
      | .ok v => .ok (ainsert vars name ⟨var.type, v⟩)
      | .error m => .error (.fatal lineno m)
    else if var.type = "bool" then
      let rhs2 := trim rhs
      if rhs2 = "true" ∨ rhs2 = "1" then .ok (ainsert vars name ⟨var.type, "true"⟩)
      else if rhs2 = "false" ∨ rhs2 = "0" then .ok (ainsert vars name ⟨var.type, "false"⟩)
      else .error (.fatal lineno ("Invalid bool assignment: " ++ rhs2))
    else .ok (ainsert vars name ⟨var.type, stripQuotes rhs⟩)

/-- `processInput` from main.cpp (lines 101-110): write the prompt
without a newline, read one line (end of input reads as the empty
string), validate with `std::stoll` for `i`-typed input, and store the
raw input text under type `int` or `str`. -/
def processInput (vars : VarStore) (name ty prompt : String) (lineno : Nat)
    (stdin : List String) (out : String) :
    Except RunErr (VarStore × List String × String) :=
  let out2 := out ++ prompt
  let inp := match stdin with | s :: _ => s | [] => ""
  let stdin2 := match stdin with | _ :: r => r | [] => []
  if ty = "i" then
    if stollOk inp then .ok (ainsert vars name ⟨"int", inp⟩, stdin2, out2)
    else .error (.fatal lineno ("Invalid input for int: " ++ inp))
  else .ok (ainsert vars name ⟨"str", inp⟩, stdin2, out2)

/-- Modelled from the spec: parameter binding uses "the same coercion
rules as a declaration (untyped `var` parameters bind the raw text as a
string)" (spec section 4.5); the declaration rules are those of
`processLoc` (spec section 4.1). -/
def coerceDecl (vars : VarStore) (ty raw : String) : Except String Variable :=
  if ty = "str" then .ok ⟨"str", stripQuotes (trim raw)⟩
  else if ty = "int" then
    match evalExpression vars (trim raw) with
    | .ok v => .ok ⟨"int", v⟩
    | .error m => .error m
  else if ty = "bool" then
    let v := trim raw
    if v = "true" ∨ v = "1" then .ok ⟨"bool", "true"⟩
    else if v = "false" ∨ v = "0" then .ok ⟨"bool", "false"⟩
    else .error ("Invalid bool value: " ++ v)
  else if ty = "arr" then
    .ok ⟨"arr", String.intercalate ","
          ((splitComma (trim raw)).map (fun it => stripQuotes (trim it)))⟩
  else if ty = "var" then .ok ⟨"str", raw⟩
  else .error ("Unknown parameter type: " ++ ty)

/-- Bind positional arguments to parameters left to right. -/
def bindParams (vars : VarStore) : List (String × String) → List String →
    Except String VarStore
  | [], _ => .ok vars
  | _, [] => .ok vars
  | (ty, nm) :: ps, a :: as_ =>
    match coerceDecl vars ty a with
    | .ok v => bindParams (ainsert vars nm v) ps as_
    | .error m => .error m

/-- Restore the bindings shadowed by a call's parameters. -/
def restoreParams (vars : VarStore) : List (String × Option Variable) → VarStore
  | [] => vars
  | (nm, some v) :: t => restoreParams (ainsert vars nm v) t
  | (nm, none) :: t => restoreParams (aerase vars nm) t

mutual

/-- `processPrint` from main.cpp (lines 112-146): print a literal, a
variable (arrays re-split, trimmed and rendered as `[e1, e2, ...]`;
an undefined variable is only a stderr warning), or a function call
result; each printed value is followed by a newline. -/
def processPrint (fuel : Nat) (functions : List (String × FunctionDef))
    (st : Micro) (arg : PrintArg) (lineno : Nat) : Except RunErr Micro :=
  match arg with
  | .lit s => .ok { st with out := st.out ++ s ++ "\n" }
  | .var nm =>
    match alookup st.vars nm with
    | none => .ok { st with warn := st.warn ++ ["Undefined variable: " ++ nm] }
    | some v =>
      if v.type = "arr" then
        let vals := (splitComma v.value).map trim
        .ok { st with out := st.out ++ "[" ++ String.intercalate ", " vals ++ "]" ++ "\n" }
      else .ok { st with out := st.out ++ v.value ++ "\n" }
  | .call f argsStr =>
    let args := (splitComma argsStr).map trim
    match alookup functions f with
    | none => .error (.fatal lineno ("Undefined function: " ++ f))
    | some fd =>
      match fuel with
      | 0 => .error (.fatal lineno "Recursion limit exceeded")
      | n + 1 =>
        match executeFunction n fd args functions st with
        | .ok (res, st2) => .ok { st2 with out := st2.out ++ res ++ "\n" }
        | .error e => .error e

/-- Modelled from the spec: `executeFunction` is declared in the missing
`src/h/executor.h`.  Spec section 4.5: check arity, bind each declared
parameter to its positional argument with declaration coercion,
interpret the body with the same statement dispatch, stop at the first
reached `return` yielding its evaluated text (empty result when the body
falls off the end), and restore shadowed outer bindings. -/
def executeFunction (fuel : Nat) (fd : FunctionDef) (args : List String)
    (functions : List (String × FunctionDef)) (st : Micro) :
    Except RunErr (String × Micro) :=
  match fuel with
  | 0 => .error (.fatal 0 "Recursion limit exceeded")
  | n + 1 =>
    if fd.params.length ≠ args.length then
      .error (.fatal 0 ("Arity mismatch calling function"))
    else
      let olds := fd.params.map (fun p => (p.2, alookup st.vars p.2))
      match bindParams st.vars fd.params args with
      | .error m => .error (.fatal 0 m)
      | .ok vars2 =>
        match runBodyLines n functions { st with vars := vars2 } fd.body [] 1 with
        | .error e => .error e
        | .ok (ret, st2) =>
          .ok (ret.getD "", { st2 with vars := restoreParams st2.vars olds })

/-- Modelled from the spec: interpretation of function-body lines by
"the same statement dispatch used at top level (including nested
if/elif/end and `return <expr>!`)" (spec section 4.5); the body keeps
its own conditional-frame stack, and a `return` line's expression is
evaluated by the expression evaluator. -/
def runBodyLines (fuel : Nat) (functions : List (String × FunctionDef))
    (st : Micro) (lines : List String) (ifStack : List IfState) (lineno : Nat) :
    Except RunErr (Option String × Micro) :=
  match fuel with
  | 0 => .error (.fatal 0 "Recursion limit exceeded")
  | n + 1 =>
    match lines with
    | [] => .ok (none, st)
    | ln :: rest =>
      if ln = "" then runBodyLines n functions st rest ifStack (lineno + 1)
      else if startsWith ln "if-" then
        match matchCond ['i', 'f', '-'] ln with
        | some (l, op, r) =>
          match evaluateCondition st.vars l op r with
          | .ok res => runBodyLines n functions st rest (⟨res, !res⟩ :: ifStack) (lineno + 1)
          | .error m => .error (.fatal lineno m)
        | none => .error (.fatal lineno "Malformed if condition")
      else if startsWith ln "elif-" then
        match ifStack with
        | [] => .error (.fatal lineno "elif without if")
        | top :: tail =>
          if top.matched then
            runBodyLines n functions st rest (⟨true, true⟩ :: tail) (lineno + 1)
          else
            match matchCond ['e', 'l', 'i', 'f', '-'] ln with
            | none => .error (.fatal lineno "Malformed elif")
            | some (l, op, r) =>
              match evaluateCondition st.vars l op r with
              | .ok res => runBodyLines n functions st rest (⟨res, !res⟩ :: tail) (lineno + 1)
              | .error m => .error (.fatal lineno m)
      else if ln = "end--" then
        match ifStack with
        | [] => .error (.fatal lineno "end-- without if")
        | _ :: tail => runBodyLines n functions st rest tail (lineno + 1)
      else if (match ifStack with | t :: _ => t.skipping | [] => false) then
        runBodyLines n functions st rest ifStack (lineno + 1)
      else
        match matchReturn ln with
        | some expr =>
          match evalExpression st.vars expr with
          | .ok v => .ok (some v, st)
          | .error m => .error (.fatal lineno m)
        | none =>
        match matchLoc ln with
        | some (nm, ty, raw) =>
          match processLoc st.vars nm ty raw lineno with
          | .ok vs => runBodyLines n functions { st with vars := vs } rest ifStack (lineno + 1)
          | .error e => .error e
        | none =>
        match matchInput ln with
        | some (nm, ty, prompt) =>
          match processInput st.vars nm ty prompt lineno st.stdin st.out with
          | .ok (vs, si, o) =>
            runBodyLines n functions { st with vars := vs, stdin := si, out := o } rest ifStack (lineno + 1)
          | .error e => .error e
        | none =>
        match matchAssign ln with
        | some (nm, rhs) =>
          match processAssign st.vars nm rhs lineno with
          | .ok vs => runBodyLines n functions { st with vars := vs } rest ifStack (lineno + 1)
          | .error e => .error e
        | none =>
        match matchPrint ln with
        | some arg =>
          match processPrint n functions st arg lineno with
          | .ok st2 => runBodyLines n functions st2 rest ifStack (lineno + 1)
          | .error e => .error e
        | none => .error (.syntaxError lineno ln)

end

/-! ## Top-level driver (`main` from main.cpp, lines 148-251) -/

/-- Full interpreter state of the dispatch loop in `main`. -/
structure RunSt where
  ctx : Context
  inFunction : Bool
  currentFuncName : String
  currentFunc : FunctionDef
  ifStack : List IfState
  stdin : List String
  out : String
  warn : List String
deriving DecidableEq

/-- Parameter-list parsing of the `funS` header (main.cpp lines
183-198): split on commas, trim, skip empties; `type : name` pairs keep
both parts trimmed, a bare name gets declared type `var`. -/
def parseParams (s : String) : List (String × String) :=
  (((splitComma s).map trim).filter (fun p => p ≠ "")).map fun p =>
    match p.data.findIdx? (· = ':') with
    | some i => (trim ⟨p.data.take i⟩, trim ⟨p.data.drop (i + 1)⟩)
    | none => ("var", p)

/-- One iteration of the dispatch loop of `main` on the (trimmed) line
`ln` with 1-based number `lineno`. -/
def stepLine (fuel : Nat) (st : RunSt) (lineno : Nat) (ln : String) :
    Except RunErr RunSt :=
  if ln = "" then .ok st
  else if st.inFunction then
    if ln = "\x7d" then
      .ok { st with
            ctx := { st.ctx with
                     functions := ainsert st.ctx.functions st.currentFuncName st.currentFunc }
            inFunction := false }
    else
      .ok { st with currentFunc := { st.currentFunc with body := st.currentFunc.body ++ [ln] } }
  else
    match matchFun ln with
    | some (rt, nm, paramStr) =>
      .ok { st with
            inFunction := true
            currentFuncName := nm
            currentFunc := { returnType := rt, params := parseParams paramStr, body := [] } }
    | none =>
      if startsWith ln "if-" then
        match matchCond ['i', 'f', '-'] ln with
        | some (l, op, r) =>
          match evaluateCondition st.ctx.vars l op r with
          | .ok res => .ok { st with ifStack := ⟨res, !res⟩ :: st.ifStack }
          | .error m => .error (.fatal lineno m)
        | none => .error (.fatal lineno "Malformed if condition")
      else if startsWith ln "elif-" then
        match st.ifStack with
        | [] => .error (.fatal lineno "elif without if")
        | top :: tail =>
          if top.matched then .ok { st with ifStack := ⟨true, true⟩ :: tail }
          else
            match matchCond ['e', 'l', 'i', 'f', '-'] ln with
            | none => .error (.fatal lineno "Malformed elif")
            | some (l, op, r) =>
              match evaluateCondition st.ctx.vars l op r with
              | .ok res => .ok { st with ifStack := ⟨res, !res⟩ :: tail }
              | .error m => .error (.fatal lineno m)
      else if ln = "end--" then
        match st.ifStack with
        | [] => .error (.fatal lineno "end-- without if")
        | _ :: tail => .ok { st with ifStack := tail }
      else if (match st.ifStack with | t :: _ => t.skipping | [] => false) then .ok st
      else
        match matchLoc ln with
        | some (nm, ty, raw) =>
          match processLoc st.ctx.vars nm ty raw lineno with
          | .ok vs => .ok { st with ctx := { st.ctx with vars := vs } }
          | .error e => .error e
        | none =>
        match matchInput ln with
        | some (nm, ty, prompt) =>
          match processInput st.ctx.vars nm ty prompt lineno st.stdin st.out with
          | .ok (vs, si, o) =>
            .ok { st with ctx := { st.ctx with vars := vs }, stdin := si, out := o }
          | .error e => .error e
        | none =>
        match matchAssign ln with
        | some (nm, rhs) =>
          match processAssign st.ctx.vars nm rhs lineno with
          | .ok vs => .ok { st with ctx := { st.ctx with vars := vs } }
          | .error e => .error e
        | none =>
        match matchPrint ln with
        | some arg =>
          match processPrint fuel st.ctx.functions
              ⟨st.ctx.vars, st.stdin, st.out, st.warn⟩ arg lineno with
          | .ok mi =>
            .ok { st with
                  ctx := { st.ctx with vars := mi.vars }
                  stdin := mi.stdin
                  out := mi.out
                  warn := mi.warn }
          | .error e => .error e
        | none => .error (.syntaxError lineno ln)

/-- The dispatch loop over the remaining lines; when the input ends the
loop simply returns the current state with success (main.cpp line 250). -/
def runLinesTop (fuel : Nat) : List String → Nat → RunSt → Except RunErr RunSt
  | [], _, st => .ok st
  | ln :: rest, i, st =>
    match stepLine fuel st i ln with
    | .ok st2 => runLinesTop fuel rest (i + 1) st2
    | .error e => .error e

/-- Initial interpreter state. -/
def initialState (stdin : List String) : RunSt :=
  ⟨⟨[], []⟩, false, "", ⟨"", [], []⟩, [], stdin, "", []⟩

/-- Whole-program run: lines are trimmed on read (main.cpp line 154) and
processed from line number 1; `.ok` models exit status 0 and `.error`
exit status 1. -/
def runProgram (fuel : Nat) (lines : List String) (stdin : List String) :
    Except RunErr RunSt :=
  runLinesTop fuel (lines.map trim) 1 (initialState stdin)

/-- Process exit status of a run. -/
def exitCode (r : Except RunErr RunSt) : Nat :=
  match r with
  | .ok _ => 0
  | .error _ => 1

/-! ### Observation helpers for closed statements about concrete runs -/

/-- Error component of an `Except`, if any. -/
def errOfE {ε α : Type} : Except ε α → Option ε
  | .error e => some e
  | .ok _ => none

/-- Success component of an `Except`, if any. -/
def okOfE {ε α : Type} : Except ε α → Option α
  | .error _ => none
  | .ok a => some a

/-- Accumulated stdout of a successful run. -/
def outOf (r : Except RunErr RunSt) : Option String := (okOfE r).map (·.out)

/-- Stderr warnings of a successful run. -/
def warnOf (r : Except RunErr RunSt) : Option (List String) := (okOfE r).map (·.warn)

/-- Final binding of a variable after a successful run. -/
def finalVar (r : Except RunErr RunSt) (n : String) : Option (Option Variable) :=
  (okOfE r).map (fun st => alookup st.ctx.vars n)

/-- Final binding of a function after a successful run. -/
def finalFun (r : Except RunErr RunSt) (n : String) : Option (Option FunctionDef) :=
  (okOfE r).map (fun st => alookup st.ctx.functions n)

/-- Final function table of a successful run. -/
def functionsOf (r : Except RunErr RunSt) : Option (List (String × FunctionDef)) :=
  (okOfE r).map (fun st => st.ctx.functions)

/-- Final collection-mode flag of a successful run. -/
def inFunctionOf (r : Except RunErr RunSt) : Option Bool :=
  (okOfE r).map (·.inFunction)

/-- Final conditional-frame stack of a successful run. -/
def ifStackOf (r : Except RunErr RunSt) : Option (List IfState) :=
  (okOfE r).map (·.ifStack)

/-! ## Abstract view of one if- and elif- chain (for the control-flow
claims): the frame pushed for `if-` (main.cpp line 209) and the frame
replacement performed for `elif-` (lines 214-223), with the branch
condition's value supplied as a boolean. -/

/-- Frame replacement at an `elif-` head: if an earlier branch already
matched, the frame stays matched and skipping regardless of this
branch's condition; otherwise the frame reflects this branch's
condition. -/
def elifStep (top : IfState) (cond : Bool) : IfState :=
  if top.matched then ⟨true, true⟩ else ⟨cond, !cond⟩

/-- The sequence of frame states a single if- and elif- chain goes through:
one state per branch, starting from the `if-` push for condition `c0`
and replacing via `elifStep` for each further condition. -/
def chainGo (s : IfState) : List Bool → List IfState
  | [] => [s]
  | c :: cs => s :: chainGo (elifStep s c) cs

/-- All frame states of a chain whose `if-` condition is `c0` and whose
`elif-` conditions are `cs`. -/
def chainStates (c0 : Bool) (cs : List Bool) : List IfState :=
  chainGo ⟨c0, !c0⟩ cs

/-- Boolean pairwise check over a list: `f a b` holds for every pair
`a` before `b`. -/
def pairwiseB (f : IfState → IfState → Bool) : List IfState → Bool
  | [] => true
  | x :: xs => xs.all (f x) && pairwiseB f xs

/-- Is `n` a prefix of `h`? -/
def isPrefixCs : List Char → List Char → Bool
  | [], _ => true
  | _ :: _, [] => false
  | a :: as_, b :: bs => a = b && isPrefixCs as_ bs

/-- Does `hay` contain `needle` as a contiguous substring? -/
def containsSub (hay needle : List Char) : Bool :=
  isPrefixCs needle hay ||
    match hay with
    | [] => false
    | _ :: t => containsSub t needle

/-- Modelled from the spec: the value invariant of spec section 3 —
"value must always be re-parseable as its declared type (ints as
decimal text; bools as exactly `true`/`false`; arrays as comma-joined,
unquoted, trimmed elements)".  For arrays this requires every
comma-separated element to be trim-stable and not quote-wrapped. -/
def specValueInvariant (v : Variable) : Bool :=
  if v.type = "int" then isDecimalIntText v.value
  else if v.type = "bool" then v.value = "true" || v.value = "false"
  else if v.type = "arr" then
    ((splitChar ',' v.value.data []).map (fun l => (⟨l⟩ : String))).all
      (fun e => trim e = e && stripQuotes e = e)
  else true

/-! # Helper lemmas -/

theorem decDigit_isDigit : ∀ d, d < 10 → (decDigit d).isDigit = true := by decide

theorem natToDecAux_digits : ∀ f n, ∀ c ∈ natToDecAux f n, c.isDigit = true := by
  intro f
  induction f with
  | zero => intro n c hc; simp [natToDecAux] at hc
  | succ f ih =>
    intro n c hc
    simp only [natToDecAux] at hc
    split at hc
    · simp only [List.mem_singleton] at hc
      subst hc
      exact decDigit_isDigit n (by assumption)
    · rcases List.mem_append.mp hc with h | h
      · exact ih _ _ h
      · simp only [List.mem_singleton] at h
        subst h
        exact decDigit_isDigit _ (Nat.mod_lt _ (by norm_num))

theorem natToDecAux_ne_nil (f n : Nat) : natToDecAux (f + 1) n ≠ [] := by
  simp only [natToDecAux]
  split
  · simp
  · simp

theorem isDecimalIntText_mk_cons (c : Char) (cs : List Char) :
    isDecimalIntText ⟨c :: cs⟩ =
      if c = '-' then (decide (cs ≠ []) && cs.all (·.isDigit))
      else (c :: cs).all (·.isDigit) := rfl

theorem isDecimalIntText_natToDec (n : Nat) : isDecimalIntText ⟨natToDec n⟩ = true := by
  have hne : natToDec n ≠ [] := natToDecAux_ne_nil n n
  have hdig : ∀ c ∈ natToDec n, c.isDigit = true :=
    fun c hc => natToDecAux_digits (n + 1) n c hc
  rcases h : natToDec n with _ | ⟨c, cs⟩
  · exact absurd h hne
  · rw [isDecimalIntText_mk_cons]
    have hc : c.isDigit = true := hdig c (by rw [h]; exact List.mem_cons_self _ _)
    have hcm : c ≠ '-' := by
      intro e
      rw [e] at hc
      exact absurd hc (by decide)
    rw [if_neg hcm]
    apply List.all_eq_true.mpr
    intro x hx
    exact hdig x (by rw [h]; exact hx)

theorem isDecimalIntText_intToDecString (i : Int) :
    isDecimalIntText (intToDecString i) = true := by
  unfold intToDecString
  split
  · rw [isDecimalIntText_mk_cons, if_pos rfl]
    rw [Bool.and_eq_true]
    exact ⟨decide_eq_true (natToDecAux_ne_nil _ _),
      List.all_eq_true.mpr fun x hx => natToDecAux_digits _ _ x hx⟩
  · exact isDecimalIntText_natToDec _

theorem evalExpression_ok_shape (vars : VarStore) (e s : String)
    (h : evalExpression vars e = .ok s) : ∃ i : Int, s = intToDecString i := by
  unfold evalExpression at h
  split at h
  · simp at h
  · split at h
    · simp at h
    · injection h with h2
      exact ⟨_, h2.symm⟩
    · simp at h

theorem alookup_ainsert_self {α : Type} (l : List (String × α)) (n : String) (v : α) :
    alookup (ainsert l n v) n = some v := by
  induction l with
  | nil => simp [ainsert, alookup]
  | cons p t ih =>
    obtain ⟨k, w⟩ := p
    by_cases hk : k = n
    · simp [ainsert, hk, alookup]
    · simp [ainsert, hk, alookup, ih]

theorem alookup_ainsert_ne {α : Type} (l : List (String × α)) (n m : String) (v : α)
    (h : m ≠ n) : alookup (ainsert l n v) m = alookup l m := by
  induction l with
  | nil => simp [ainsert, alookup, Ne.symm h]
  | cons p t ih =>
    obtain ⟨k, w⟩ := p
    by_cases hk : k = n
    · subst hk
      simp [ainsert, alookup, Ne.symm h]
    · simp [ainsert, hk, alookup, ih]

theorem any_key_ainsert {α : Type} (t : List (String × α)) (n k : String) (v : α)
    (h : k ≠ n) :
    (ainsert t n v).any (fun p => p.1 = k) = t.any (fun p => p.1 = k) := by
  induction t with
  | nil => simp [ainsert, Ne.symm h]
  | cons p t ih =>
    obtain ⟨k2, w⟩ := p
    by_cases hk : k2 = n
    · subst hk
      simp [ainsert, Ne.symm h]
    · simp [ainsert, hk, ih]

theorem keysNodupB_ainsert {α : Type} (l : List (String × α)) (n : String) (v : α)
    (h : keysNodupB l = true) : keysNodupB (ainsert l n v) = true := by
  induction l with
  | nil => simp [ainsert, keysNodupB]
  | cons p t ih =>
    obtain ⟨k, w⟩ := p
    simp only [keysNodupB, Bool.and_eq_true, Bool.not_eq_true'] at h
    by_cases hk : k = n
    · subst hk
      simp [ainsert, keysNodupB, h.1, h.2]
    · simp only [ainsert, if_neg hk, keysNodupB, Bool.and_eq_true, Bool.not_eq_true']
      exact ⟨by rw [any_key_ainsert t n k v hk]; exact h.1, ih h.2⟩

theorem alookup_ainsert_type (vars : VarStore) (nm : String) (var : Variable)
    (x : String) (h : alookup vars nm = some var) (n : String) :
    (alookup (ainsert vars nm ⟨var.type, x⟩) n).map Variable.type =
      (alookup vars n).map Variable.type := by
  by_cases e : n = nm
  · subst e
    rw [alookup_ainsert_self, h]
    rfl
  · rw [alookup_ainsert_ne _ _ _ _ e]

theorem elifStep_inv (s : IfState) (c : Bool) :
    (elifStep s c).matched = true ∨ (elifStep s c).skipping = true := by
  by_cases hm : s.matched = true
  · left; simp [elifStep, hm]
  · cases c
    · right; simp [elifStep, hm]
    · left; simp [elifStep, hm]

theorem chainGo_matched (cs : List Bool) : ∀ s : IfState, s.matched = true →
    chainGo s cs = s :: List.replicate cs.length (IfState.mk true true) := by
  induction cs with
  | nil => intro s _; simp [chainGo]
  | cons c cs ih =>
    intro s h
    have he : elifStep s c = ⟨true, true⟩ := by simp [elifStep, h]
    simp only [chainGo, he, ih ⟨true, true⟩ rfl, List.length_cons, List.replicate_succ]

theorem chainGo_countP (cs : List Bool) : ∀ s : IfState,
    s.matched = true ∨ s.skipping = true →
    (chainGo s cs).countP (fun t => !t.skipping) ≤ 1 := by
  induction cs with
  | nil =>
    intro s _
    simp only [chainGo, List.countP_cons, List.countP_nil]
    split <;> simp
  | cons c cs ih =>
    intro s hs
    simp only [chainGo, List.countP_cons]
    by_cases hsk : s.skipping = true
    · have h0 : (!s.skipping) = false := by simp [hsk]
      rw [h0]
      simpa using ih (elifStep s c) (elifStep_inv s c)
    · have hm : s.matched = true := by
        rcases hs with h | h
        · exact h
        · exact absurd h hsk
      have he : (elifStep s c).matched = true := by simp [elifStep, hm]
      have hz : (chainGo (elifStep s c) cs).countP (fun t => !t.skipping) = 0 := by
        rw [chainGo_matched cs (elifStep s c) he]
        apply List.countP_eq_zero.mpr
        intro a ha
        rcases List.mem_cons.mp ha with h | h
        · subst h
          simp [elifStep, hm]
        · rw [List.eq_of_mem_replicate h]
          simp
      rw [hz]
      split <;> simp

theorem chainGo_pairwise (cs : List Bool) : ∀ s : IfState,
    pairwiseB (fun a b => !a.matched || b.skipping) (chainGo s cs) = true := by
  induction cs with
  | nil => intro s; simp [chainGo, pairwiseB]
  | cons c cs ih =>
    intro s
    simp only [chainGo, pairwiseB, Bool.and_eq_true]
    refine ⟨?_, ih (elifStep s c)⟩
    by_cases hm : s.matched = true
    · rw [chainGo_matched cs (elifStep s c) (by simp [elifStep, hm])]
      apply List.all_eq_true.mpr
      intro a ha
      rcases List.mem_cons.mp ha with h | h
      · subst h
        simp [elifStep, hm]
      · rw [List.eq_of_mem_replicate h]
        simp
    · apply List.all_eq_true.mpr
      intro a _
      simp only [Bool.not_eq_true] at hm
      simp [hm]

theorem startsWith_elif_shape (ln : String) (h : startsWith ln "elif-" = true) :
    ∃ rest, ln.data = 'e' :: 'l' :: 'i' :: 'f' :: '-' :: rest := by
  obtain ⟨cs⟩ := ln
  have h2 : startsWith.go cs ['e', 'l', 'i', 'f', '-'] = true := h
  rcases cs with _ | ⟨a, _ | ⟨b, _ | ⟨c, _ | ⟨d, _ | ⟨e, r⟩⟩⟩⟩⟩ <;>
    simp [startsWith.go] at h2
  obtain ⟨rfl, rfl, rfl, rfl, rfl⟩ := h2
  exact ⟨r, rfl⟩

theorem matchFun_of_elif (ln : String) (h : startsWith ln "elif-" = true) :
    matchFun ln = none := by
  obtain ⟨rest, hdata⟩ := startsWith_elif_shape ln h
  simp [matchFun, hdata, expectChars]

theorem not_if_of_elif (ln : String) (h : startsWith ln "elif-" = true) :
    startsWith ln "if-" = false := by
  obtain ⟨rest, hdata⟩ := startsWith_elif_shape ln h
  obtain ⟨cs⟩ := ln
  simp only [String.data] at hdata
  subst hdata
  simp [startsWith, startsWith.go]

theorem ne_empty_of_elif (ln : String) (h : startsWith ln "elif-" = true) :
    ln ≠ "" := by
  obtain ⟨rest, hdata⟩ := startsWith_elif_shape ln h
  intro e
  rw [e] at hdata
  simp at hdata

theorem stepLine_elif_after_match (fuel : Nat) (st : RunSt) (lineno : Nat)
    (ln : String) (t : IfState) (tail : List IfState)
    (hin : st.inFunction = false) (hstk : st.ifStack = t :: tail)
    (hm : t.matched = true) (hln : startsWith ln "elif-" = true) :
    stepLine fuel st lineno ln = .ok { st with ifStack := ⟨true, true⟩ :: tail } := by
  unfold stepLine
  rw [if_neg (ne_empty_of_elif ln hln), hin]
  simp only [Bool.false_eq_true, if_false, matchFun_of_elif ln hln,
    not_if_of_elif ln hln, hln, hstk, hm, if_true]

theorem processPrint_arr (fuel : Nat) (functions : List (String × FunctionDef))
    (st : Micro) (nm : String) (v : Variable) (lineno : Nat)
    (hv : alookup st.vars nm = some v) (ht : v.type = "arr") :
    processPrint fuel functions st (.var nm) lineno =
      .ok { st with out := st.out ++ "[" ++
              String.intercalate ", " ((splitComma v.value).map trim) ++ "]" ++ "\n" } := by
  simp [processPrint, hv, ht]

theorem processPrint_undefined (fuel : Nat) (functions : List (String × FunctionDef))
    (st : Micro) (nm : String) (lineno : Nat) (h : alookup st.vars nm = none) :
    processPrint fuel functions st (.var nm) lineno =
      .ok { st with warn := st.warn ++ ["Undefined variable: " ++ nm] } := by
  simp [processPrint, h]

theorem processAssign_undefined (vars : VarStore) (nm rhs : String) (lineno : Nat)
    (h : alookup vars nm = none) :
    processAssign vars nm rhs lineno =
      .error (.fatal lineno ("Undefined variable: " ++ nm)) := by
  simp [processAssign, h]

theorem processAssign_preserves_types (vars : VarStore) (nm rhs : String)
    (lineno : Nat) (vars2 : VarStore)
    (h : processAssign vars nm rhs lineno = .ok vars2) (n : String) :
    (alookup vars2 n).map Variable.type = (alookup vars n).map Variable.type := by
  unfold processAssign at h
  split at h
  · exact absurd h (by simp)
  next var hvar =>
    dsimp only at h
    split at h
    · split at h
      · injection h with h2
        subst h2
        exact alookup_ainsert_type vars nm var _ hvar n
      · exact absurd h (by simp)
    · split at h
      · split at h
        · injection h with h2
          subst h2
          exact alookup_ainsert_type vars nm var _ hvar n
        · split at h
          · injection h with h2
            subst h2
            exact alookup_ainsert_type vars nm var _ hvar n
          · exact absurd h (by simp)
      · injection h with h2
        subst h2
        exact alookup_ainsert_type vars nm var _ hvar n

theorem processLoc_reparse (vars : VarStore) (nm ty raw : String) (lineno : Nat)
    (vars2 : VarStore) (h : processLoc vars nm ty raw lineno = .ok vars2)
    (v : Variable) (hv : alookup vars2 nm = some v) :
    (v.type = "int" → isDecimalIntText v.value = true) ∧
    (v.type = "bool" → (v.value = "true" ∨ v.value = "false")) := by
  unfold processLoc at h
  dsimp only at h
  split at h
  · injection h with h2
    subst h2
    rw [alookup_ainsert_self] at hv
    injection hv with hv2
    subst hv2
    exact ⟨fun e => by simp at e, fun e => by simp at e⟩
  · split at h
    · split at h
      next val heval =>
        injection h with h2
        subst h2
        rw [alookup_ainsert_self] at hv
        injection hv with hv2
        subst hv2
        obtain ⟨i, hi⟩ := evalExpression_ok_shape _ _ _ heval
        refine ⟨fun _ => ?_, fun e => by simp at e⟩
        show isDecimalIntText val = true
        rw [hi]
        exact isDecimalIntText_intToDecString i
      · exact absurd h (by simp)
    · split at h
      · split at h
        · injection h with h2
          subst h2
          rw [alookup_ainsert_self] at hv
          injection hv with hv2
          subst hv2
          exact ⟨fun e => by simp at e, fun _ => Or.inl rfl⟩
        · split at h
          · injection h with h2
            subst h2
            rw [alookup_ainsert_self] at hv
            injection hv with hv2
            subst hv2
            exact ⟨fun e => by simp at e, fun _ => Or.inr rfl⟩
          · exact absurd h (by simp)
      · split at h
        · injection h with h2
          subst h2
          rw [alookup_ainsert_self] at hv
          injection hv with hv2
          subst hv2
          exact ⟨fun e => by simp at e, fun e => by simp at e⟩
        · exact absurd h (by simp)

theorem processAssign_reparse (vars : VarStore) (nm rhs : String) (lineno : Nat)
    (vars2 : VarStore) (h : processAssign vars nm rhs lineno = .ok vars2)
    (v : Variable) (hv : alookup vars2 nm = some v) :
    (v.type = "int" → isDecimalIntText v.value = true) ∧
    (v.type = "bool" → (v.value = "true" ∨ v.value = "false")) := by
  unfold processAssign at h
  split at h
  · exact absurd h (by simp)
  next var hvar =>
    dsimp only at h
    split at h
    next htype =>
      split at h
      next val heval =>
        injection h with h2
        subst h2
        rw [alookup_ainsert_self] at hv
        injection hv with hv2
        subst hv2
        obtain ⟨i, hi⟩ := evalExpression_ok_shape _ _ _ heval
        refine ⟨fun _ => ?_, fun e => ?_⟩
        · show isDecimalIntText val = true
          rw [hi]
          exact isDecimalIntText_intToDecString i
        · rw [htype] at e
          exact absurd e (by decide)
      · exact absurd h (by simp)
    next hnotint =>
      split at h
      next htype =>
        split at h
        · injection h with h2
          subst h2
          rw [alookup_ainsert_self] at hv
          injection hv with hv2
          subst hv2
          exact ⟨fun e => absurd (htype ▸ e) (by decide), fun _ => Or.inl rfl⟩
        · split at h
          · injection h with h2
            subst h2
            rw [alookup_ainsert_self] at hv
            injection hv with hv2
            subst hv2
            exact ⟨fun e => absurd (htype ▸ e) (by decide), fun _ => Or.inr rfl⟩
          · exact absurd h (by simp)
      next hnotbool =>
        injection h with h2
        subst h2
        rw [alookup_ainsert_self] at hv
        injection hv with hv2
        subst hv2
        exact ⟨fun e => absurd e hnotint, fun e => absurd e hnotbool⟩

theorem runLinesTop_nil (fuel i : Nat) (st : RunSt) :
    runLinesTop fuel [] i st = .ok st := rfl

theorem exitCode_eq (r : Except RunErr RunSt) :
    exitCode r = if (okOfE r).isSome then 0 else 1 := by
  cases r <;> rfl

theorem stepLine_functions_nodup (fuel : Nat) (st : RunSt) (i : Nat) (ln : String)
    (st2 : RunSt) (hn : keysNodupB st.ctx.functions = true)
    (h : stepLine fuel st i ln = .ok st2) : keysNodupB st2.ctx.functions = true := by
  unfold stepLine at h
  repeat' split at h
  all_goals first
    | (injection h with h2; subst h2;
       first
         | exact hn
         | exact keysNodupB_ainsert _ _ _ hn)
    | simp at h

theorem runLinesTop_functions_nodup (fuel : Nat) (lines : List String) :
    ∀ (i : Nat) (st st2 : RunSt), keysNodupB st.ctx.functions = true →
    runLinesTop fuel lines i st = .ok st2 → keysNodupB st2.ctx.functions = true := by
  induction lines with
  | nil =>
    intro i st st2 hn h
    rw [runLinesTop_nil] at h
    injection h with h2
    subst h2
    exact hn
  | cons ln rest ih =>
    intro i st st2 hn h
    unfold runLinesTop at h
    split at h
    next st3 hstep => exact ih _ _ _ (stepLine_functions_nodup _ _ _ _ _ hn hstep) h
    next e he => simp at h

theorem runProgram_functions_nodup (fuel : Nat) (lines stdin : List String)
    (st2 : RunSt) (h : runProgram fuel lines stdin = .ok st2) :
    keysNodupB st2.ctx.functions = true :=
  runLinesTop_functions_nodup fuel (lines.map trim) 1 (initialState stdin) st2 rfl h

/-! # Claim theorems -/

/-- C1: For every conditional region, at most one branch body's statement
lines execute even when several branch conditions hold: among the frame
states a single chain passes through (the frame pushed at the if- head and
replaced at each elif- head, exactly as in main.cpp lines 209 and 214-223),
at most one is ever non-skipping, and once a frame is matched every later
frame of the chain is skipping; concretely, in a driver run where both the
if- condition and the elif- condition hold, only the first branch's print
executes. -/
theorem claim_C1 :
    (∀ (c0 : Bool) (cs : List Bool),
      (chainStates c0 cs).countP (fun t => !t.skipping) ≤ 1 ∧
      pairwiseB (fun a b => !a.matched || b.skipping) (chainStates c0 cs) = true) ∧
    outOf (runProgram 0 ["loc a = int(5)!", "if- a >> 1 the", "print--\"first\"!",
        "elif- a >> 2 the", "print--\"second\"!", "end--"] []) = some "first\n" := by
  refine ⟨fun c0 cs => ⟨?_, chainGo_pairwise cs _⟩, by decide⟩
  apply chainGo_countP
  cases c0
  · right; rfl
  · left; rfl

/-- C2 counterexample: the claim asserts that an elif- line's condition is
evaluated even when an earlier branch of its chain has already matched.  In
the program below the if- branch matches, and the following elif- condition
compares the undefined identifier zzz, whose evaluation necessarily fails
with a fatal UndefinedVariable error; yet the run completes with exit
status 0 and no error, because the interpreter never evaluates (or even
parses) an elif- line once the popped frame is matched. -/
theorem claim_C2_counterexample :
    errOfE (evaluateCondition [("a", ⟨"int", "1"⟩)] "zzz" "===" "1") =
      some "Undefined variable: zzz" ∧
    outOf (runProgram 0 ["loc a = int(1)!", "if- a === 1 the",
        "elif- zzz === 1 the", "end--"] []) = some "" ∧
    exitCode (runProgram 0 ["loc a = int(1)!", "if- a === 1 the",
        "elif- zzz === 1 the", "end--"] []) = 0 := by
  exact ⟨by decide, by decide, by decide⟩

/-- C2 amended: an if- line's condition is evaluated eagerly whenever the
line is reached, even inside a skipping region (first conjunct: the inner
if- condition in a skipped branch still raises its fatal error); an elif-
line's condition is evaluated when no earlier branch of its chain has
matched (second conjunct); but when the popped frame is already matched,
any elif- prefixed line is accepted without being parsed or evaluated and
the frame is replaced by the matched-and-skipping frame (third conjunct). -/
theorem claim_C2_amended :
    errOfE (runProgram 0 ["if- 1 === 2 the", "if- zzz === 1 the",
        "end--", "end--"] []) = some (.fatal 2 "Undefined variable: zzz") ∧
    errOfE (runProgram 0 ["if- 1 === 2 the", "elif- zzz === 1 the",
        "end--"] []) = some (.fatal 2 "Undefined variable: zzz") ∧
    (∀ (fuel : Nat) (st : RunSt) (lineno : Nat) (ln : String)
        (t : IfState) (tail : List IfState),
      st.inFunction = false → st.ifStack = t :: tail → t.matched = true →
      startsWith ln "elif-" = true →
      stepLine fuel st lineno ln = .ok { st with ifStack := ⟨true, true⟩ :: tail }) :=
  ⟨by decide, by decide, fun fuel st lineno ln t tail =>
    stepLine_elif_after_match fuel st lineno ln t tail⟩

/-- C2 amended witness: concrete instance of the third conjunct — a
malformed elif- line after a matched frame is accepted as a pure frame
replacement. -/
theorem claim_C2_amended_witness :
    stepLine 0 { initialState [] with ifStack := [⟨true, false⟩] } 3 "elif- x the" =
      .ok { initialState [] with ifStack := [⟨true, true⟩] } :=
  claim_C2_amended.2.2 0 { initialState [] with ifStack := [⟨true, false⟩] } 3
    "elif- x the" ⟨true, false⟩ [] rfl rfl rfl (by decide)

/-- C3 counterexample: the claim asserts that no later statement changes a
variable's declared type.  But a second loc declaration of the same name
replaces the variable wholesale — after `loc a = str("x")!` the variable a
has type str, and after a subsequent `loc a = int(5)!` it has type int —
and an input statement likewise replaces the type (b declared bool becomes
str after `b = input--str- "p"!`). -/
theorem claim_C3_counterexample :
    finalVar (runProgram 0 ["loc a = str(\"x\")!"] []) "a" =
      some (some ⟨"str", "x"⟩) ∧
    finalVar (runProgram 0 ["loc a = str(\"x\")!", "loc a = int(5)!"] []) "a" =
      some (some ⟨"int", "5"⟩) ∧
    finalVar (runProgram 0 ["loc b = bool(true)!", "b = input--str- \"p\"!"]
        ["hello"]) "b" = some (some ⟨"str", "hello"⟩) := by
  exact ⟨by decide, by decide, by decide⟩

/-- C3 amended: a plain assignment never changes any variable's declared
type (only the value field may change), but a second loc declaration of the
same name and an input statement replace the variable wholesale, its type
included. -/
theorem claim_C3_amended :
    (∀ (vars : VarStore) (nm rhs : String) (lineno : Nat) (vars2 : VarStore),
      processAssign vars nm rhs lineno = .ok vars2 →
      ∀ n, (alookup vars2 n).map Variable.type = (alookup vars n).map Variable.type) ∧
    finalVar (runProgram 0 ["loc a = str(\"x\")!", "loc a = int(5)!"] []) "a" =
      some (some ⟨"int", "5"⟩) ∧
    finalVar (runProgram 0 ["loc b = bool(true)!", "b = input--str- \"p\"!"]
        ["hello"]) "b" = some (some ⟨"str", "hello"⟩) :=
  ⟨processAssign_preserves_types, by decide, by decide⟩

/-- C3 amended witness: concrete instance of the assignment conjunct — an
int-to-int assignment leaves the stored type map unchanged. -/
theorem claim_C3_amended_witness :
    (alookup [("x", (⟨"int", "2"⟩ : Variable))] "x").map Variable.type =
      (alookup [("x", (⟨"int", "1"⟩ : Variable))] "x").map Variable.type :=
  claim_C3_amended.1 [("x", ⟨"int", "1"⟩)] "x" "2" 1 [("x", ⟨"int", "2"⟩)]
    (by decide) "x"

/-- C4 counterexample: the claim asserts every stored value re-parses as
its declared type, in particular for `input--(i)`.  But stoll accepts the
input line `12abc` (integer prefix with trailing garbage) and processInput
then stores the raw text `12abc` under type int, which is not decimal
integer text. -/
theorem claim_C4_counterexample :
    finalVar (runProgram 0 ["x = input--i- \"p\"!"] ["12abc"]) "x" =
      some (some ⟨"int", "12abc"⟩) ∧
    specValueInvariant ⟨"int", "12abc"⟩ = false := by
  exact ⟨by decide, by decide⟩

/-- C4 amended: int- and bool-typed values produced by declarations and by
assignments do re-parse as their declared type (ints as decimal text, bools
as exactly true or false); but `input--(i)` stores the raw input line
verbatim whenever stoll accepts an integer prefix of it (for example
`12abc`), and an assignment to an arr-typed variable stores the raw rhs
without splitting or trimming, so the full invariant fails in those
cases. -/
theorem claim_C4_amended :
    (∀ (vars : VarStore) (nm ty raw : String) (lineno : Nat) (vars2 : VarStore),
      processLoc vars nm ty raw lineno = .ok vars2 →
      ∀ v, alookup vars2 nm = some v →
      (v.type = "int" → isDecimalIntText v.value = true) ∧
      (v.type = "bool" → (v.value = "true" ∨ v.value = "false"))) ∧
    (∀ (vars : VarStore) (nm rhs : String) (lineno : Nat) (vars2 : VarStore),
      processAssign vars nm rhs lineno = .ok vars2 →
      ∀ v, alookup vars2 nm = some v →
      (v.type = "int" → isDecimalIntText v.value = true) ∧
      (v.type = "bool" → (v.value = "true" ∨ v.value = "false"))) ∧
    finalVar (runProgram 0 ["x = input--i- \"p\"!"] ["12abc"]) "x" =
      some (some ⟨"int", "12abc"⟩) ∧
    specValueInvariant ⟨"int", "12abc"⟩ = false ∧
    finalVar (runProgram 0 ["loc a = arr(\"x\")!", "a = p , q!"] []) "a" =
      some (some ⟨"arr", "p , q"⟩) ∧
    specValueInvariant ⟨"arr", "p , q"⟩ = false :=
  ⟨fun vars nm ty raw lineno vars2 h v hv =>
      processLoc_reparse vars nm ty raw lineno vars2 h v hv,
   fun vars nm rhs lineno vars2 h v hv =>
      processAssign_reparse vars nm rhs lineno vars2 h v hv,
   by decide, by decide, by decide, by decide⟩

/-- C4 amended witness: concrete instance of the declaration conjunct — an
int declaration stores decimal integer text. -/
theorem claim_C4_amended_witness :
    isDecimalIntText (Variable.value ⟨"int", "5"⟩) = true :=
  (claim_C4_amended.1 [] "n" "int" "5" 1 [("n", ⟨"int", "5"⟩)] (by decide)
    ⟨"int", "5"⟩ (by decide)).1 rfl

/-- C5 counterexample: the claim asserts that a later funS definition with
an already-used name does not replace the earlier committed definition.
But committing a definition assigns through the function table's
`operator[]`, which overwrites: after defining foo with body `return 1!`
and then again with body `return 2!`, the table holds the second body. -/
theorem claim_C5_counterexample :
    finalFun (runProgram 0 ["funS int foo():\x7b", "return 1!", "\x7d"] [])
      "foo" = some (some ⟨"int", [], ["return 1!"]⟩) ∧
    finalFun (runProgram 0 ["funS int foo():\x7b", "return 1!", "\x7d",
        "funS int foo():\x7b", "return 2!", "\x7d"] []) "foo" =
      some (some ⟨"int", [], ["return 2!"]⟩) := by
  exact ⟨by decide, by decide⟩

/-- C5 amended: function names in the Context are unique — looking up a
name after a commit finds the committed definition, committing preserves
key distinctness, and every successful run from the empty context has a
duplicate-free function table — but a later funS definition with the same
name REPLACES the earlier committed definition instead of leaving it
intact. -/
theorem claim_C5_amended :
    (∀ (fs : List (String × FunctionDef)) (n : String) (fd : FunctionDef),
      alookup (ainsert fs n fd) n = some fd) ∧
    (∀ (fs : List (String × FunctionDef)) (n : String) (fd : FunctionDef),
      keysNodupB fs = true → keysNodupB (ainsert fs n fd) = true) ∧
    (∀ (fuel : Nat) (lines stdin : List String) (st2 : RunSt),
      runProgram fuel lines stdin = .ok st2 →
      keysNodupB st2.ctx.functions = true) ∧
    finalFun (runProgram 0 ["funS int foo():\x7b", "return 1!", "\x7d",
        "funS int foo():\x7b", "return 2!", "\x7d"] []) "foo" =
      some (some ⟨"int", [], ["return 2!"]⟩) :=
  ⟨fun fs n fd => alookup_ainsert_self fs n fd,
   fun fs n fd h => keysNodupB_ainsert fs n fd h,
   fun fuel lines stdin st2 h => runProgram_functions_nodup fuel lines stdin st2 h,
   by decide⟩

/-- C5 amended witness: concrete instance of the uniqueness conjuncts. -/
theorem claim_C5_amended_witness :
    keysNodupB (ainsert ([] : List (String × FunctionDef)) "foo"
      ⟨"int", [], []⟩) = true :=
  claim_C5_amended.2.1 [] "foo" ⟨"int", [], []⟩ (by decide)

/-- C6: after `loc a = arr("x","y","z")!`, the statement `print--a!` writes
exactly `[x, y, z]` followed by a newline; and in general printing any
arr-typed variable writes `[` then its comma-split, re-trimmed elements
joined by comma-space, then `]` and a newline. -/
theorem claim_C6 :
    outOf (runProgram 0 ["loc a = arr(\"x\",\"y\",\"z\")!", "print--a!"] []) =
      some "[x, y, z]\n" ∧
    (∀ (fuel : Nat) (functions : List (String × FunctionDef)) (st : Micro)
        (nm : String) (v : Variable) (lineno : Nat),
      alookup st.vars nm = some v → v.type = "arr" →
      processPrint fuel functions st (.var nm) lineno =
        .ok { st with out := st.out ++ "[" ++
                String.intercalate ", " ((splitComma v.value).map trim) ++
                "]" ++ "\n" }) :=
  ⟨by decide, fun fuel functions st nm v lineno hv ht =>
    processPrint_arr fuel functions st nm v lineno hv ht⟩

/-- C6 witness: concrete instance of the general conjunct. -/
theorem claim_C6_witness :
    processPrint 0 [] ⟨[("a", ⟨"arr", "x,y"⟩)], [], "", []⟩ (.var "a") 1 =
      .ok ⟨[("a", ⟨"arr", "x,y"⟩)], [], "[x, y]" ++ "\n", []⟩ := by
  have h := claim_C6.2 0 [] ⟨[("a", ⟨"arr", "x,y"⟩)], [], "", []⟩ "a"
    ⟨"arr", "x,y"⟩ 1 (by decide) rfl
  exact h

/-- C7: a `print--NAME!` naming an undefined variable only appends a
stderr warning and leaves the variable store, stdin and stdout untouched
(execution continues), whereas an undefined name on the left side of an
assignment is a fatal UndefinedVariable error; concretely, a run whose
first statement prints an undefined name still executes its second
statement and exits 0, while undefined identifiers in condition or
arithmetic evaluation are fatal errors as well. -/
theorem claim_C7 :
    (∀ (fuel : Nat) (functions : List (String × FunctionDef)) (st : Micro)
        (nm : String) (lineno : Nat),
      alookup st.vars nm = none →
      processPrint fuel functions st (.var nm) lineno =
        .ok { st with warn := st.warn ++ ["Undefined variable: " ++ nm] }) ∧
    (∀ (vars : VarStore) (nm rhs : String) (lineno : Nat),
      alookup vars nm = none →
      processAssign vars nm rhs lineno =
        .error (.fatal lineno ("Undefined variable: " ++ nm))) ∧
    outOf (runProgram 0 ["print--nope!", "print--\"done\"!"] []) = some "done\n" ∧
    warnOf (runProgram 0 ["print--nope!", "print--\"done\"!"] []) =
      some ["Undefined variable: nope"] ∧
    exitCode (runProgram 0 ["print--nope!", "print--\"done\"!"] []) = 0 ∧
    errOfE (runProgram 0 ["nope = 5!"] []) =
      some (.fatal 1 "Undefined variable: nope") ∧
    errOfE (evaluateCondition [] "zzz" "===" "1") = some "Undefined variable: zzz" ∧
    errOfE (evalExpression [] "zzz") = some "Undefined variable: zzz" :=
  ⟨fun fuel functions st nm lineno h =>
      processPrint_undefined fuel functions st nm lineno h,
   fun vars nm rhs lineno h => processAssign_undefined vars nm rhs lineno h,
   by decide, by decide, by decide, by decide, by decide, by decide⟩

/-- C7 witness: concrete instances of the two quantified conjuncts. -/
theorem claim_C7_witness :
    processPrint 0 [] ⟨[], [], "", []⟩ (.var "q") 1 =
      .ok ⟨[], [], "", ["Undefined variable: " ++ "q"]⟩ ∧
    processAssign [] "q" "5" 1 = .error (.fatal 1 ("Undefined variable: " ++ "q")) :=
  ⟨claim_C7.1 0 [] ⟨[], [], "", []⟩ "q" 1 rfl,
   claim_C7.2.1 [] "q" "5" 1 rfl⟩

/-- C8: calling an undefined function is fatal — the one-line program
`print--f-foo()!` with no definition of foo terminates with exit status 1
and the diagnostic `Error at line 1: Undefined function: foo`, whose text
contains `Undefined function`. -/
theorem claim_C8 :
    errOfE (runProgram 0 ["print--f-foo()!"] []) =
      some (.fatal 1 "Undefined function: foo") ∧
    exitCode (runProgram 0 ["print--f-foo()!"] []) = 1 ∧
    containsSub (renderErr (.fatal 1 "Undefined function: foo")).data
      "Undefined function".data = true := by
  exact ⟨by decide, by decide, by decide⟩

/-- C9: an unrecognized line is reported as `Syntax error at line N:
<text>` with the 1-based line number and exit status 1 — in particular for
the malformed line `x === 5`, both as line 1 and (after a recognized line)
as line 2 — while a run is exactly one of success with exit status 0 and
error with exit status 1, and a fully recognized, error-free run exits 0
after its last line. -/
theorem claim_C9 :
    errOfE (runProgram 0 ["x === 5"] []) = some (.syntaxError 1 "x === 5") ∧
    renderErr (.syntaxError 1 "x === 5") = "Syntax error at line 1: x === 5" ∧
    exitCode (runProgram 0 ["x === 5"] []) = 1 ∧
    errOfE (runProgram 0 ["print--\"a\"!", "x === 5"] []) =
      some (.syntaxError 2 "x === 5") ∧
    (∀ r : Except RunErr RunSt, exitCode r = if (okOfE r).isSome then 0 else 1) ∧
    exitCode (runProgram 0 ["print--\"hi\"!"] []) = 0 :=
  ⟨by decide, by decide, by decide, by decide, exitCode_eq, by decide⟩

/-- C10: when the input ends, the dispatch loop returns success whatever
state it is in — no closing-brace or end-- check happens at end of input.
A program whose function body is never closed exits 0 with the partially
collected function absent from the function table (and collection mode
still on), and a program with an open conditional frame exits 0 with the
frame still on the stack. -/
theorem claim_C10 :
    (∀ (fuel i : Nat) (st : RunSt), runLinesTop fuel [] i st = .ok st) ∧
    inFunctionOf (runProgram 0 ["funS int foo():\x7b", "return 1!"] []) =
      some true ∧
    functionsOf (runProgram 0 ["funS int foo():\x7b", "return 1!"] []) =
      some [] ∧
    exitCode (runProgram 0 ["funS int foo():\x7b", "return 1!"] []) = 0 ∧
    ifStackOf (runProgram 0 ["if- 1 === 1 the", "print--\"x\"!"] []) =
      some [⟨true, false⟩] ∧
    exitCode (runProgram 0 ["if- 1 === 1 the", "print--\"x\"!"] []) = 0 :=
  ⟨fun fuel i st => runLinesTop_nil fuel i st,
   by decide, by decide, by decide, by decide, by decide⟩

end Lo
